import Mathlib

/-!
Verification development for the Session Timing & Task Sequencing Engine of
the dissertation-study web application.  The JavaScript source is embedded
shallowly: pure functions become Lean functions, the timer object becomes a
`Timer` structure with one Lean function per method, machine arithmetic
(32-bit wraparound of `|0`, `Math.imul`, `<<`, `>>>`) is modelled on `Nat`
and `Int` with explicit `% 2^32`, and JavaScript `Math.round` (half toward
positive infinity) is modelled on `ℚ` as `⌊x + 1/2⌋`.  Timestamps
(`Date.now()` milliseconds) are modelled as `Int`.
-/

namespace Study

/-! ## Deterministic sequencer (src/tasks.js)

`mulberry32` keeps a 32-bit state `a`; each call advances the state and
returns a number in `[0,1)` whose numerator is a 32-bit integer.  We model
the state and the numerator as `Nat < 2^32`; the JavaScript value
`((t ^ t >>> 14) >>> 0) / 4294967296` is represented by its numerator `k`,
and the consumer expression `Math.floor(rng() * (i + 1))` becomes the exact
natural division `k * (i + 1) / 2^32` (the double products involved are
below `2^53`, hence exact). -/

def mb32next (a : Nat) : Nat × Nat :=
  let a1 := (a % 4294967296 + 0x6D2B79F5) % 4294967296
  let t1 := ((a1 ^^^ (a1 >>> 15)) * (1 ||| a1)) % 4294967296
  let t2 := t1 ^^^ ((t1 + ((t1 ^^^ (t1 >>> 7)) * (61 ||| t1)) % 4294967296) % 4294967296)
  (a1, t2 ^^^ (t2 >>> 14))

/-- Swap of two positions of a list, mirroring the JavaScript destructuring
swap `[a[i], a[j]] = [a[j], a[i]]`; out-of-range indices leave the list
unchanged (never exercised by the shuffle loop, whose indices are in range). -/
def listSwap {α : Type} (l : List α) (i j : Nat) : List α :=
  match l[i]?, l[j]? with
  | some x, some y => (l.set i y).set j x
  | _, _ => l

/-- The first `n` numerators produced by a mulberry32 generator seeded with
`a` (the generator is called exactly once per loop iteration, so threading
its state is equivalent to consuming this precomputed stream). -/
def mb32stream (a : Nat) : Nat → List Nat
  | 0 => []
  | Nat.succ n => (mb32next a).2 :: mb32stream (mb32next a).1 n

/-- The Fisher–Yates loop of `shuffleWithSeed`, running the index `i` from
`a.length - 1` down to `1`, consuming one random numerator `k` per
iteration; `Math.floor(rng() * (i + 1))` is the exact natural division
`k * (i + 1) / 2^32`. -/
def fyLoop {α : Type} (a : List α) (i : Nat) (ks : List Nat) : List α :=
  match i with
  | 0 => a
  | Nat.succ m =>
    match ks with
    | [] => a
    | k :: rest => fyLoop (listSwap a (m + 1) (k * (m + 2) / 4294967296)) m rest

/-- `shuffleWithSeed(array, seed)` from src/tasks.js. -/
def shuffleWithSeed {α : Type} (l : List α) (seed : Nat) : List α :=
  fyLoop l (l.length - 1) (mb32stream seed (l.length - 1))

/-- `ensureDemographicsLast(sequence)` from src/tasks.js: drop every
occurrence of the terminal task code and push one copy at the end. -/
def ensureDemographicsLast (l : List String) : List String :=
  (l.filter (fun c => c != "DEMO")) ++ ["DEMO"]

def DESKTOP_TASKS : List String := ["RC", "MRT", "ASLCT", "VCN", "SN", "ID"]

def MOBILE_TASKS : List String := ["RC", "MRT", "ASLCT", "SN", "ID"]

/-- Device-class selection performed inline in `createNewSession`. -/
def deviceTasks (isMobile : Bool) : List String :=
  if isMobile then MOBILE_TASKS else DESKTOP_TASKS

/-- The sequence construction performed by `createNewSession`:
shuffle the device list with the seed, then normalize the terminal task. -/
def buildSequence (isMobile : Bool) (seed : Nat) : List String :=
  ensureDemographicsLast (shuffleWithSeed (deviceTasks isMobile) seed)

/-- JavaScript `ToInt32` (the `|0` coercion): wrap into `[-2^31, 2^31)`. -/
def toInt32 (n : Int) : Int := (n + 2147483648) % 4294967296 - 2147483648

/-- One step of `hashCode`: `hash = (hash << 5) - hash + c; hash |= 0`.
The `<< 5` shift itself wraps at 32 bits, hence the inner `toInt32`. -/
def hashStep (h : Int) (c : Nat) : Int := toInt32 (toInt32 (h * 32) - h + (c : Int))

/-- `hashCode(str)`: rolling 31-multiplier hash with 32-bit wraparound. -/
def hashCode (s : String) : Int :=
  s.data.foldl (fun h c => hashStep h c.toNat) 0

/-- The seed derivation in `createNewSession`: `Math.abs(hashCode(code))`. -/
def seedOf (code : String) : Nat := (hashCode code).natAbs

/-! ### Permutation facts for the shuffle -/

theorem count_set_add {α : Type} [DecidableEq α] (l : List α) (n : Nat) (b : α)
    (h : n < l.length) (a : α) :
    (l.set n b).count a + (if l[n] = a then 1 else 0)
      = l.count a + (if b = a then 1 else 0) := by
  rw [List.set_eq_take_cons_drop b h]
  conv_rhs => rw [← List.take_append_drop n l, List.drop_eq_getElem_cons h]
  simp only [List.count_append, List.count_cons, beq_iff_eq]
  split_ifs <;> omega

theorem listSwap_perm {α : Type} [DecidableEq α] (l : List α) (i j : Nat) :
    (listSwap l i j).Perm l := by
  unfold listSwap
  cases hx : l[i]? with
  | none => exact List.Perm.refl l
  | some x =>
    cases hy : l[j]? with
    | none => exact List.Perm.refl l
    | some y =>
      obtain ⟨hi, hxv⟩ := List.getElem?_eq_some_iff.mp hx
      obtain ⟨hj, hyv⟩ := List.getElem?_eq_some_iff.mp hy
      show ((l.set i y).set j x).Perm l
      have hj2 : j < (l.set i y).length := by simpa using hj
      have hmid : (l.set i y)[j] = y := by
        by_cases hij : i = j
        · subst hij
          exact List.getElem_set_self hj2
        · rw [List.getElem_set_ne hij]
          exact hyv
      apply List.perm_iff_count.mpr
      intro a
      have h1 := count_set_add (l.set i y) j x hj2 a
      have h2 := count_set_add l i y hi a
      rw [hmid] at h1
      rw [hxv] at h2
      split_ifs at h1 h2 <;> omega

theorem fyLoop_perm {α : Type} [DecidableEq α] (a : List α) (i : Nat) (ks : List Nat) :
    (fyLoop a i ks).Perm a := by
  induction i generalizing a ks with
  | zero => exact List.Perm.refl a
  | succ m ih =>
    cases ks with
    | nil => exact List.Perm.refl a
    | cons k rest =>
      exact (ih _ rest).trans (listSwap_perm a (m + 1) (k * (m + 2) / 4294967296))

theorem shuffleWithSeed_perm {α : Type} [DecidableEq α] (l : List α) (seed : Nat) :
    (shuffleWithSeed l seed).Perm l :=
  fyLoop_perm l (l.length - 1) (mb32stream seed (l.length - 1))

/-! ## Timer state machine (`createTimer` in src/app bundle, part_002)

Each timer object is a record of millisecond timestamps and accumulators;
`Date.now()` values are modelled as `Int`, the JavaScript `null` of
`endTime`/`pauseStart` as `Option Int` (with `null` coercing to `0` in the
arithmetic of `getSummary`, and JavaScript truthiness testing `≠ 0`).
The `intervalId` and `onInactivity` scheduler wiring carries no timing
state and is not modelled; `externalTime` is kept but is touched by none of
the modelled operations. -/

inductive PauseReason
  | manual
  | visibility
  | blur
  | exit
  | inactivity
deriving DecidableEq, Repr

structure Timer where
  startTime : Int
  endTime : Option Int
  activeTime : Int
  lastActivity : Int
  isPaused : Bool
  pauseReason : Option PauseReason
  pauseCount : Int
  inactivityTime : Int
  pausedTime : Int
  pauseStart : Option Int
  lastTick : Int
  externalTime : Int
deriving DecidableEq, Repr

/-- `createTimer()`: the initial field values (`null` modelled as
`none`, and the `null` timestamps that are read numerically as `0`). -/
def createTimer : Timer :=
  { startTime := 0, endTime := none, activeTime := 0, lastActivity := 0,
    isPaused := false, pauseReason := none, pauseCount := 0,
    inactivityTime := 0, pausedTime := 0, pauseStart := none,
    lastTick := 0, externalTime := 0 }

/-- JavaScript truthiness of a nullable numeric field. -/
def jsTruthy : Option Int → Bool
  | none => false
  | some n => n != 0

/-- `start()`. -/
def Timer.start (t : Timer) (now : Int) : Timer :=
  { t with startTime := now, lastActivity := now, lastTick := now,
           activeTime := 0, inactivityTime := 0, pausedTime := 0,
           pauseCount := 0, isPaused := false, pauseStart := none }

/-- `pause(reason)`: a no-op when already paused. -/
def Timer.pause (t : Timer) (r : PauseReason) (now : Int) : Timer :=
  if t.isPaused then t
  else { t with isPaused := true, pauseReason := some r,
                pauseCount := t.pauseCount + 1, pauseStart := some now }

/-- `resume()`: flushes a manual pause interval into `pausedTime`
(guarded by the truthiness of `pauseStart`), then clears the pause. -/
def Timer.resume (t : Timer) (now : Int) : Timer :=
  if t.isPaused then
    let t1 :=
      if t.pauseReason == some PauseReason.manual && jsTruthy t.pauseStart then
        { t with pausedTime := t.pausedTime + (now - t.pauseStart.getD 0) }
      else t
    { t1 with isPaused := false, pauseReason := none,
              lastActivity := now, lastTick := now }
  else t

/-- `tick()`: `hidden` is `document.hidden` at the moment of the tick. -/
def Timer.tick (t : Timer) (now : Int) (hidden : Bool) : Timer :=
  let t1 :=
    if !hidden && !t.isPaused then
      if now - t.lastActivity > 120000 then t.pause PauseReason.inactivity now
      else if now - t.lastActivity < 5000 then
        { t with activeTime := t.activeTime + (now - t.lastTick) }
      else
        { t with inactivityTime := t.inactivityTime + (now - t.lastTick) }
    else if t.isPaused && t.pauseReason == some PauseReason.inactivity then
      { t with inactivityTime := t.inactivityTime + (now - t.lastTick) }
    else t
  { t1 with lastTick := now }

/-- `recordActivity()`. -/
def Timer.recordActivity (t : Timer) (now : Int) : Timer :=
  let t1 := { t with lastActivity := now }
  if t1.isPaused && t1.pauseReason == some PauseReason.inactivity then
    t1.resume now
  else t1

/-- `stop()` (the `clearInterval` call carries no timing state). -/
def Timer.stop (t : Timer) (now : Int) : Timer :=
  let t1 :=
    if t.isPaused && jsTruthy t.pauseStart
        && t.pauseReason == some PauseReason.manual then
      { t with pausedTime := t.pausedTime + (now - t.pauseStart.getD 0) }
    else t
  { t1 with endTime := some now }

/-- JavaScript `Math.round`: round half toward positive infinity. -/
def jsRound (x : ℚ) : Int := Int.floor (x + 1 / 2)

/-- The numeric fields of the object returned by `getSummary()` (the ISO
date strings and the activity percentage are presentation only). -/
structure Summary where
  elapsed : Int
  active : Int
  pauseCount : Int
  paused : Int
  inactive : Int
deriving DecidableEq, Repr

/-- `getSummary()`: clamp each bucket at `elapsed`, and if the clamped
buckets still overshoot, scale all three by `elapsed / total` and round. -/
def Timer.getSummary (t : Timer) (now : Int) : Summary :=
  let elapsed := t.endTime.getD now - t.startTime
  let active := min t.activeTime elapsed
  let paused := min t.pausedTime elapsed
  let inactive := min t.inactivityTime elapsed
  let total := active + paused + inactive
  if total > elapsed then
    let scale : ℚ := (elapsed : ℚ) / (total : ℚ)
    { elapsed := elapsed, active := jsRound ((active : ℚ) * scale),
      pauseCount := t.pauseCount, paused := jsRound ((paused : ℚ) * scale),
      inactive := jsRound ((inactive : ℚ) * scale) }
  else
    { elapsed := elapsed, active := active, pauseCount := t.pauseCount,
      paused := paused, inactive := inactive }

/-- The operations a driver can invoke on a live timer (stop is modelled
separately, as `Timer.stop`). -/
inductive TimerOp
  | start
  | tick (hidden : Bool)
  | recordActivity
  | pause (r : PauseReason)
  | resume
deriving DecidableEq, Repr

def applyOp (t : Timer) (now : Int) (op : TimerOp) : Timer :=
  match op with
  | TimerOp.start => t.start now
  | TimerOp.tick hidden => t.tick now hidden
  | TimerOp.recordActivity => t.recordActivity now
  | TimerOp.pause r => t.pause r now
  | TimerOp.resume => t.resume now

/-- Run a timestamped sequence of operations. -/
def runTrace (t : Timer) (ops : List (Int × TimerOp)) : Timer :=
  ops.foldl (fun s p => applyOp s p.1 p.2) t

/-- Timestamps are nondecreasing along the trace and the summary is taken
at a time `T` no earlier than the last event (`Date.now()` is monotone). -/
def Chrono (t0 : Int) (ops : List (Int × TimerOp)) (T : Int) : Prop :=
  List.Chain' (fun a b => a ≤ b) (t0 :: (ops.map Prod.fst ++ [T]))

/-! ### The bucket-partition invariant

`Inv t c` says: at any wall-clock instant `c` at or after the last event
applied to the live (never stopped) timer `t`, the three accumulators are
nonnegative and their sum is bounded by the time already elapsed up to
`lastTick` — or, during a manual pause, up to the pause start.  This is
the inductive strengthening behind the `getSummary` invariant. -/

def Inv (t : Timer) (c : Int) : Prop :=
  t.endTime = none ∧
  0 ≤ t.activeTime ∧ 0 ≤ t.pausedTime ∧ 0 ≤ t.inactivityTime ∧
  t.startTime ≤ t.lastTick ∧ t.lastTick ≤ c ∧
  ((t.isPaused = true ∧ t.pauseReason = some PauseReason.manual ∧
      ∃ ps, t.pauseStart = some ps ∧ t.startTime ≤ ps ∧ ps ≤ c ∧
        t.activeTime + t.pausedTime + t.inactivityTime ≤ ps - t.startTime) ∨
    (¬(t.isPaused = true ∧ t.pauseReason = some PauseReason.manual) ∧
      t.activeTime + t.pausedTime + t.inactivityTime
        ≤ t.lastTick - t.startTime))

theorem Inv_mono {t : Timer} {c c2 : Int} (h : Inv t c) (hcc : c ≤ c2) :
    Inv t c2 := by
  obtain ⟨hend, ha, hp, hi, hst, hlt, hb⟩ := h
  refine ⟨hend, ha, hp, hi, hst, le_trans hlt hcc, ?_⟩
  rcases hb with ⟨hP, hR, ps, hps, h1, h2, h3⟩ | ⟨hn, hbd⟩
  · exact Or.inl ⟨hP, hR, ps, hps, h1, le_trans h2 hcc, h3⟩
  · exact Or.inr ⟨hn, hbd⟩

theorem Inv_start {t : Timer} {c now : Int} (h : Inv t c) (_hcn : c ≤ now) :
    Inv (t.start now) now := by
  obtain ⟨hend, -, -, -, -, -, -⟩ := h
  refine ⟨hend, le_refl 0, le_refl 0, le_refl 0, le_refl now, le_refl now, ?_⟩
  exact Or.inr ⟨by simp [Timer.start], by simp [Timer.start]⟩

theorem Inv_touchTick {t : Timer} {c now : Int} (h : Inv t c) (hcn : c ≤ now) :
    Inv { t with lastTick := now } now := by
  obtain ⟨hend, ha, hp, hi, hst, hlt, hb⟩ := h
  unfold Inv
  dsimp only
  refine ⟨hend, ha, hp, hi, by omega, le_refl now, ?_⟩
  rcases hb with ⟨hP, hR, ps, hps, h1, h2, h3⟩ | ⟨hn, hbd⟩
  · exact Or.inl ⟨hP, hR, ps, hps, h1, by omega, h3⟩
  · exact Or.inr ⟨hn, by omega⟩

theorem Inv_pause {t : Timer} {c now : Int} (r : PauseReason)
    (h : Inv t c) (hcn : c ≤ now) : Inv (t.pause r now) now := by
  obtain ⟨hend, ha, hp, hi, hst, hlt, hb⟩ := h
  unfold Timer.pause
  by_cases hP : t.isPaused
  · simpa [hP] using Inv_mono ⟨hend, ha, hp, hi, hst, hlt, hb⟩ hcn
  · have hbd : t.activeTime + t.pausedTime + t.inactivityTime
        ≤ t.lastTick - t.startTime := by
      rcases hb with ⟨hP2, -⟩ | ⟨-, hbd⟩
      · exact absurd hP2 (by simp [hP])
      · exact hbd
    rw [if_neg (by simp [hP])]
    unfold Inv
    dsimp only
    refine ⟨hend, ha, hp, hi, hst, le_trans hlt hcn, ?_⟩
    by_cases hr : r = PauseReason.manual
    · subst hr
      exact Or.inl ⟨rfl, rfl, now, rfl, by omega, le_refl now, by omega⟩
    · exact Or.inr ⟨fun hcontra => hr (Option.some.inj hcontra.2), hbd⟩

theorem Inv_resume {t : Timer} {c now : Int} (h : Inv t c) (hcn : c ≤ now) :
    Inv (t.resume now) now := by
  obtain ⟨hend, ha, hp, hi, hst, hlt, hb⟩ := h
  unfold Timer.resume
  by_cases hP : t.isPaused
  · rw [if_pos hP]
    rcases hb with ⟨-, hR, ps, hps, h1, h2, h3⟩ | ⟨hn, hbd⟩
    · by_cases hz : ps = 0
      · rw [if_neg (by subst hz; simp [hR, hps, jsTruthy])]
        unfold Inv
        dsimp only
        exact ⟨hend, ha, hp, hi, by omega, le_refl now,
          Or.inr ⟨by simp, by omega⟩⟩
      · rw [if_pos (by simp [hR, hps, jsTruthy, hz])]
        unfold Inv
        dsimp only
        rw [hps]
        have hget : (some ps).getD 0 = ps := rfl
        rw [hget]
        exact ⟨hend, ha, by omega, hi, by omega, le_refl now,
          Or.inr ⟨by simp, by omega⟩⟩
    · have hRne : t.pauseReason ≠ some PauseReason.manual := by
        intro hcontra
        exact hn ⟨hP, hcontra⟩
      rw [if_neg (by simp [hRne])]
      unfold Inv
      dsimp only
      exact ⟨hend, ha, hp, hi, by omega, le_refl now,
        Or.inr ⟨by simp, by omega⟩⟩
  · simpa [hP] using Inv_mono ⟨hend, ha, hp, hi, hst, hlt, hb⟩ hcn

theorem Inv_tick {t : Timer} {c now : Int} (hidden : Bool)
    (h : Inv t c) (hcn : c ≤ now) : Inv (t.tick now hidden) now := by
  have hInv := h
  obtain ⟨hend, ha, hp, hi, hst, hlt, hb⟩ := h
  unfold Timer.tick
  by_cases hrun : (!hidden && !t.isPaused) = true
  · rw [if_pos hrun]
    by_cases h120 : now - t.lastActivity > 120000
    · rw [if_pos h120]
      exact Inv_touchTick (Inv_pause PauseReason.inactivity hInv hcn)
        (le_refl now)
    · rw [if_neg h120]
      have hP : t.isPaused = false := by
        simp only [Bool.and_eq_true, Bool.not_eq_true'] at hrun
        exact hrun.2
      have hbd : t.activeTime + t.pausedTime + t.inactivityTime
          ≤ t.lastTick - t.startTime := by
        rcases hb with ⟨hP2, -⟩ | ⟨-, hbd⟩
        · rw [hP] at hP2; exact absurd hP2 (by simp)
        · exact hbd
      by_cases h5 : now - t.lastActivity < 5000
      · rw [if_pos h5]
        unfold Inv
        dsimp only
        exact ⟨hend, by omega, hp, hi, by omega, le_refl now,
          Or.inr ⟨by simp [hP], by omega⟩⟩
      · rw [if_neg h5]
        unfold Inv
        dsimp only
        exact ⟨hend, ha, hp, by omega, by omega, le_refl now,
          Or.inr ⟨by simp [hP], by omega⟩⟩
  · rw [if_neg (by simpa using hrun)]
    by_cases hinact : (t.isPaused && t.pauseReason == some PauseReason.inactivity) = true
    · rw [if_pos hinact]
      have hbd : t.activeTime + t.pausedTime + t.inactivityTime
          ≤ t.lastTick - t.startTime := by
        rcases hb with ⟨-, hR, -⟩ | ⟨-, hbd⟩
        · simp only [Bool.and_eq_true, beq_iff_eq] at hinact
          rw [hR] at hinact
          exact absurd hinact.2 (by simp)
        · exact hbd
      unfold Inv
      dsimp only
      refine ⟨hend, ha, hp, by omega, by omega, le_refl now, ?_⟩
      refine Or.inr ⟨fun hcontra => ?_, by omega⟩
      simp only [Bool.and_eq_true, beq_iff_eq] at hinact
      rw [hcontra.2] at hinact
      exact absurd hinact.2 (by simp)
    · rw [if_neg (by simpa using hinact)]
      exact Inv_touchTick hInv hcn

theorem Inv_recordActivity {t : Timer} {c now : Int}
    (h : Inv t c) (hcn : c ≤ now) : Inv (t.recordActivity now) now := by
  obtain ⟨hend, ha, hp, hi, hst, hlt, hb⟩ := h
  have h1 : Inv { t with lastActivity := now } c := by
    unfold Inv
    dsimp only
    refine ⟨hend, ha, hp, hi, hst, hlt, ?_⟩
    rcases hb with ⟨hP, hR, ps, hps, hx1, hx2, hx3⟩ | ⟨hn, hbd⟩
    · exact Or.inl ⟨hP, hR, ps, hps, hx1, hx2, hx3⟩
    · exact Or.inr ⟨hn, hbd⟩
  unfold Timer.recordActivity
  by_cases hcond : t.isPaused = true ∧ t.pauseReason = some PauseReason.inactivity
  · rw [if_pos (by simp [hcond.1, hcond.2])]
    exact Inv_resume h1 hcn
  · rw [if_neg (by simpa [Bool.and_eq_true, beq_iff_eq] using hcond)]
    exact Inv_mono h1 hcn

theorem Inv_applyOp {t : Timer} {c now : Int} (op : TimerOp)
    (h : Inv t c) (hcn : c ≤ now) : Inv (applyOp t now op) now := by
  cases op with
  | start => exact Inv_start h hcn
  | tick hidden => exact Inv_tick hidden h hcn
  | recordActivity => exact Inv_recordActivity h hcn
  | pause r => exact Inv_pause r h hcn
  | resume => exact Inv_resume h hcn

theorem Inv_runTrace (ops : List (Int × TimerOp)) (t : Timer) (c T : Int)
    (h : Inv t c)
    (hch : List.Chain' (fun a b => a ≤ b) (c :: (ops.map Prod.fst ++ [T]))) :
    Inv (runTrace t ops) T := by
  induction ops generalizing t c with
  | nil =>
    simp only [List.map_nil, List.nil_append, List.chain'_cons,
      List.chain'_singleton, and_true] at hch
    exact Inv_mono h hch
  | cons p rest ih =>
    obtain ⟨n, op⟩ := p
    simp only [List.map_cons, List.cons_append, List.chain'_cons] at hch
    exact ih (applyOp t n op) n (Inv_applyOp op h hch.1) hch.2

theorem getSummary_le {t : Timer} {c T : Int} (h : Inv t c) (hcT : c ≤ T) :
    (t.getSummary T).active + (t.getSummary T).paused
        + (t.getSummary T).inactive ≤ (t.getSummary T).elapsed := by
  obtain ⟨hend, ha, hp, hi, hst, hlt, hb⟩ := h
  have hsum : t.activeTime + t.pausedTime + t.inactivityTime
      ≤ T - t.startTime := by
    rcases hb with ⟨-, -, ps, -, -, h2, h3⟩ | ⟨-, hbd⟩ <;> omega
  simp only [Timer.getSummary, hend, Option.getD_none]
  rw [min_eq_left (by omega), min_eq_left (by omega), min_eq_left (by omega)]
  rw [if_neg (by omega)]
  dsimp only
  omega

/-- Claim C1: for every timer driven by a start followed by any
chronological sequence of pause/resume/tick/recordActivity calls (and
possibly further starts), the summary returned by `getSummary` satisfies
`active + paused + inactive ≤ elapsed`; on such reachable states the raw
buckets never overshoot, so the clamping and scaling of `getSummary`
return them unchanged and the bound holds exactly. -/
theorem C1_summary_partition (t0 T : Int) (ops : List (Int × TimerOp))
    (h : Chrono t0 ops T) :
    ((runTrace createTimer ((t0, TimerOp.start) :: ops)).getSummary T).active
      + ((runTrace createTimer ((t0, TimerOp.start) :: ops)).getSummary T).paused
      + ((runTrace createTimer ((t0, TimerOp.start) :: ops)).getSummary T).inactive
      ≤ ((runTrace createTimer ((t0, TimerOp.start) :: ops)).getSummary T).elapsed := by
  have hstep : runTrace createTimer ((t0, TimerOp.start) :: ops)
      = runTrace (Timer.start createTimer t0) ops := rfl
  have hstart : Inv (Timer.start createTimer t0) t0 := by
    unfold Inv Timer.start createTimer
    dsimp only
    exact ⟨rfl, le_refl 0, le_refl 0, le_refl 0, le_refl t0, le_refl t0,
      Or.inr ⟨by simp, by omega⟩⟩
  rw [hstep]
  exact getSummary_le (Inv_runTrace ops (Timer.start createTimer t0) t0 T hstart h)
    (le_refl T)

/-- Witness for C1 at a concrete chronological trace. -/
theorem C1_summary_partition_witness :
    Chrono 0 [(1000, TimerOp.tick false), (2000, TimerOp.pause PauseReason.manual),
        (3000, TimerOp.resume), (4000, TimerOp.tick false)] 5000 ∧
    ((runTrace createTimer ((0, TimerOp.start) ::
        [(1000, TimerOp.tick false), (2000, TimerOp.pause PauseReason.manual),
         (3000, TimerOp.resume), (4000, TimerOp.tick false)])).getSummary 5000).active
      + ((runTrace createTimer ((0, TimerOp.start) ::
        [(1000, TimerOp.tick false), (2000, TimerOp.pause PauseReason.manual),
         (3000, TimerOp.resume), (4000, TimerOp.tick false)])).getSummary 5000).paused
      + ((runTrace createTimer ((0, TimerOp.start) ::
        [(1000, TimerOp.tick false), (2000, TimerOp.pause PauseReason.manual),
         (3000, TimerOp.resume), (4000, TimerOp.tick false)])).getSummary 5000).inactive
      ≤ ((runTrace createTimer ((0, TimerOp.start) ::
        [(1000, TimerOp.tick false), (2000, TimerOp.pause PauseReason.manual),
         (3000, TimerOp.resume), (4000, TimerOp.tick false)])).getSummary 5000).elapsed :=
  ⟨by unfold Chrono; simp [List.chain'_cons], C1_summary_partition 0 5000
    [(1000, TimerOp.tick false), (2000, TimerOp.pause PauseReason.manual),
     (3000, TimerOp.resume), (4000, TimerOp.tick false)] (by unfold Chrono; simp [List.chain'_cons])⟩

/-! ### Tick accrual thresholds (claim C2) -/

/-- Counterexample to claim C2 as stated: a tick in the running state with
time-since-activity in the middle band (between 5 s and 120 s) accrues the
interval to `inactivityTime` (the code has `else this.inactivityTime +=
timeSinceTick`), it does not leave both buckets untouched.  Concretely,
after `start` at 0 a tick at 6000 ms adds 6000 to the inactive bucket. -/
theorem C2_middle_band_counterexample :
    ((Timer.start createTimer 0).tick 6000 false).inactivityTime = 6000 ∧
    ¬(((Timer.start createTimer 0).tick 6000 false).inactivityTime = 0) := by
  decide

/-- Claim C2 (amended): for a tick in the running (unpaused, visible)
state, strictly more than 120 s since the last activity auto-pauses with
reason inactivity and accrues nothing on that tick; strictly less than 5 s
accrues the interval since the last tick to `activeTime`; the middle band
accrues it to `inactivityTime` (not to neither bucket, as the original
claim said). -/
theorem C2_tick_thresholds (t : Timer) (now : Int) (h : t.isPaused = false) :
    ((now - t.lastActivity > 120000) →
      ((t.tick now false).isPaused = true ∧
       (t.tick now false).pauseReason = some PauseReason.inactivity ∧
       (t.tick now false).activeTime = t.activeTime ∧
       (t.tick now false).inactivityTime = t.inactivityTime ∧
       (t.tick now false).pausedTime = t.pausedTime)) ∧
    ((now - t.lastActivity < 5000) →
      ((t.tick now false).activeTime = t.activeTime + (now - t.lastTick) ∧
       (t.tick now false).inactivityTime = t.inactivityTime ∧
       (t.tick now false).isPaused = false)) ∧
    ((5000 ≤ now - t.lastActivity ∧ now - t.lastActivity ≤ 120000) →
      ((t.tick now false).inactivityTime
          = t.inactivityTime + (now - t.lastTick) ∧
       (t.tick now false).activeTime = t.activeTime ∧
       (t.tick now false).isPaused = false)) := by
  unfold Timer.tick Timer.pause
  rw [h]
  refine ⟨fun h120 => ?_, fun h5 => ?_, fun hmid => ?_⟩
  · rw [if_pos (by simp), if_pos h120, if_neg (by simp)]
    exact ⟨rfl, rfl, rfl, rfl, rfl⟩
  · rw [if_pos (by simp), if_neg (by omega), if_pos h5]
    exact ⟨rfl, rfl, rfl⟩
  · rw [if_pos (by simp), if_neg (by omega), if_neg (by omega)]
    exact ⟨rfl, rfl, rfl⟩

/-- Witness for C2 (amended) at a concrete middle-band tick. -/
theorem C2_tick_thresholds_witness :
    ((Timer.start createTimer 0).tick 6000 false).inactivityTime
        = (Timer.start createTimer 0).inactivityTime
          + (6000 - (Timer.start createTimer 0).lastTick) ∧
    ((Timer.start createTimer 0).tick 6000 false).activeTime
        = (Timer.start createTimer 0).activeTime :=
  ⟨((C2_tick_thresholds (Timer.start createTimer 0) 6000 rfl).2.2 (by decide)).1,
   ((C2_tick_thresholds (Timer.start createTimer 0) 6000 rfl).2.2 (by decide)).2.1⟩

/-! ### State after stop (claim C9) -/

/-- Counterexample to claim C9 as stated: the timer state is not frozen
after `stop()` — calling `pause` on a stopped (and unpaused) timer still
mutates it, incrementing `pauseCount` (which `getSummary` reports). -/
theorem C9_stop_not_frozen_counterexample :
    (((Timer.start createTimer 0).stop 5).pause PauseReason.manual 6).pauseCount
        = ((Timer.start createTimer 0).stop 5).pauseCount + 1 ∧
    ¬((((Timer.start createTimer 0).stop 5).pause PauseReason.manual 6)
        = ((Timer.start createTimer 0).stop 5)) := by
  decide

theorem applyOp_frame (t : Timer) (now : Int) (op : TimerOp)
    (h : op ≠ TimerOp.start) :
    (applyOp t now op).startTime = t.startTime ∧
    (applyOp t now op).endTime = t.endTime := by
  cases op with
  | start => exact absurd rfl h
  | tick hidden =>
    simp only [applyOp, Timer.tick, Timer.pause]
    split_ifs <;> exact ⟨rfl, rfl⟩
  | recordActivity =>
    simp only [applyOp, Timer.recordActivity, Timer.resume]
    split_ifs <;> exact ⟨rfl, rfl⟩
  | pause r =>
    simp only [applyOp, Timer.pause]
    split_ifs <;> exact ⟨rfl, rfl⟩
  | resume =>
    simp only [applyOp, Timer.resume]
    split_ifs <;> exact ⟨rfl, rfl⟩

theorem getSummary_elapsed (t : Timer) (T : Int) :
    (t.getSummary T).elapsed = t.endTime.getD T - t.startTime := by
  dsimp only [Timer.getSummary]
  split <;> rfl

/-- Claim C9 (amended): after `stop()` the identity of the timer window is
frozen — no subsequent tick/pause/resume/recordActivity call changes
`startTime` or `endTime`, so `getSummary` reports the same `elapsed` at
any later read time; the accumulator fields, however, are not frozen (see
the counterexample, where a pause after stop increments `pauseCount`). -/
theorem C9_elapsed_frozen_after_stop (t : Timer) (n T1 T2 : Int)
    (ops : List (Int × TimerOp))
    (hnostart : ∀ p ∈ ops, p.2 ≠ TimerOp.start) :
    (runTrace (t.stop n) ops).startTime = (t.stop n).startTime ∧
    (runTrace (t.stop n) ops).endTime = some n ∧
    ((runTrace (t.stop n) ops).getSummary T1).elapsed
      = ((t.stop n).getSummary T2).elapsed := by
  have hframe : ∀ (ops2 : List (Int × TimerOp)) (s : Timer),
      (∀ p ∈ ops2, p.2 ≠ TimerOp.start) →
      (runTrace s ops2).startTime = s.startTime ∧
      (runTrace s ops2).endTime = s.endTime := by
    intro ops2
    induction ops2 with
    | nil => exact fun s _ => ⟨rfl, rfl⟩
    | cons p rest ih =>
      intro s hno
      have h1 := applyOp_frame s p.1 p.2 (hno p (List.mem_cons_self p rest))
      have h2 := ih (applyOp s p.1 p.2)
        (fun q hq => hno q (List.mem_cons_of_mem p hq))
      exact ⟨h2.1.trans h1.1, h2.2.trans h1.2⟩
  have hstopEnd : (t.stop n).endTime = some n := by
    unfold Timer.stop
    split_ifs <;> rfl
  obtain ⟨hs, he⟩ := hframe ops (t.stop n) hnostart
  refine ⟨hs, he.trans hstopEnd, ?_⟩
  rw [getSummary_elapsed, getSummary_elapsed, hs, he, hstopEnd]
  simp [Option.getD_some]

/-- Witness for C9 (amended) at a concrete post-stop trace. -/
theorem C9_elapsed_frozen_after_stop_witness :
    (runTrace ((Timer.start createTimer 0).stop 5)
        [(6, TimerOp.pause PauseReason.manual), (7, TimerOp.tick false),
         (8, TimerOp.resume)]).startTime
      = ((Timer.start createTimer 0).stop 5).startTime ∧
    (runTrace ((Timer.start createTimer 0).stop 5)
        [(6, TimerOp.pause PauseReason.manual), (7, TimerOp.tick false),
         (8, TimerOp.resume)]).endTime = some 5 ∧
    ((runTrace ((Timer.start createTimer 0).stop 5)
        [(6, TimerOp.pause PauseReason.manual), (7, TimerOp.tick false),
         (8, TimerOp.resume)]).getSummary 100).elapsed
      = (((Timer.start createTimer 0).stop 5).getSummary 9).elapsed :=
  C9_elapsed_frozen_after_stop (Timer.start createTimer 0) 5 100 9
    [(6, TimerOp.pause PauseReason.manual), (7, TimerOp.tick false),
     (8, TimerOp.resume)] (by decide)

/-! ### Determinism of the sequencer (claim C4) -/

/-- Claim C4: the seed hash and the seeded shuffle are pure functions, so
equal session codes give equal seeds and byte-identical task sequences. -/
theorem C4_sequence_determinism (c1 c2 : String) (isMobile : Bool)
    (h : c1 = c2) :
    seedOf c1 = seedOf c2 ∧
    buildSequence isMobile (seedOf c1) = buildSequence isMobile (seedOf c2) := by
  subst h
  exact ⟨rfl, rfl⟩

/-- Witness for C4 at a concrete session code. -/
theorem C4_sequence_determinism_witness :
    seedOf "ABCDEFGH" = seedOf "ABCDEFGH" ∧
    buildSequence false (seedOf "ABCDEFGH")
      = buildSequence false (seedOf "ABCDEFGH") :=
  C4_sequence_determinism "ABCDEFGH" "ABCDEFGH" false rfl

/-! ### Well-formedness of generated sequences (claim C3) -/

theorem demo_not_in_deviceTasks (isMobile : Bool) :
    "DEMO" ∉ deviceTasks isMobile := by
  cases isMobile <;> decide

theorem deviceTasks_nodup (isMobile : Bool) : (deviceTasks isMobile).Nodup := by
  cases isMobile <;> decide

/-- Claim C3: for every device class and seed, the generated sequence ends
with the terminal task DEMO, contains it exactly once, its remaining
elements are a permutation of the device-appropriate task set, and it has
no duplicates. -/
theorem C3_sequence_wellformed (isMobile : Bool) (seed : Nat) :
    (buildSequence isMobile seed).getLast? = some "DEMO" ∧
    (buildSequence isMobile seed).count "DEMO" = 1 ∧
    ((buildSequence isMobile seed).dropLast).Perm (deviceTasks isMobile) ∧
    (buildSequence isMobile seed).Nodup := by
  have hperm := shuffleWithSeed_perm (deviceTasks isMobile) seed
  have hno : "DEMO" ∉ shuffleWithSeed (deviceTasks isMobile) seed :=
    fun hm => demo_not_in_deviceTasks isMobile (hperm.mem_iff.mp hm)
  have hfil : (shuffleWithSeed (deviceTasks isMobile) seed).filter
      (fun c => c != "DEMO") = shuffleWithSeed (deviceTasks isMobile) seed := by
    refine List.filter_eq_self.mpr (fun a ha => ?_)
    simp only [bne_iff_ne, ne_eq]
    intro hEq
    exact hno (hEq ▸ ha)
  have hbuild : buildSequence isMobile seed
      = shuffleWithSeed (deviceTasks isMobile) seed ++ ["DEMO"] := by
    unfold buildSequence ensureDemographicsLast
    rw [hfil]
  rw [hbuild]
  refine ⟨List.getLast?_concat _, ?_, ?_, ?_⟩
  · rw [List.count_append]
    rw [List.count_eq_zero.mpr hno]
    rfl
  · rw [List.dropLast_concat]
    exact hperm
  · rw [List.nodup_append]
    refine ⟨(deviceTasks_nodup isMobile).perm hperm.symm, List.nodup_singleton _, ?_⟩
    intro a ha hmem
    have : a = "DEMO" := by simpa using hmem
    exact hno (this ▸ ha)

/-! ### Session codes and the resume gate (claim C10) -/

/-- The alphabet of `generateCode()`. -/
def sessionAlphabet : List Char :=
  "ABCDEFGHIJKLMNOPQRSTUVWXYZ0123456789".data

theorem sessionAlphabet_length : sessionAlphabet.length = 36 := rfl

/-- `generateCode()`: eight characters, each chosen from the alphabet by
`Math.floor(Math.random() * chars.length)`; the random draws are modelled
as the function `picks` (each value is below 36 because `Math.random()`
is in `[0,1)`). -/
def generateCode (picks : Fin 8 → Fin 36) : String :=
  String.mk ((List.finRange 8).map
    (fun i => sessionAlphabet.get (Fin.cast sessionAlphabet_length.symm (picks i))))

/-- The validation regular expression `CODE_REGEX = /^[A-Z0-9]{8}$/` that
`resumeSession` applies to the entered code. -/
def codeFormatOk (s : String) : Bool :=
  s.length == 8 &&
    s.data.all (fun c => (decide (('A' : Char) ≤ c) && decide (c ≤ ('Z' : Char)))
      || (decide (('0' : Char) ≤ c) && decide (c ≤ ('9' : Char))))

theorem sessionAlphabet_chars_ok :
    ∀ c ∈ sessionAlphabet,
      ((decide (('A' : Char) ≤ c) && decide (c ≤ ('Z' : Char)))
        || (decide (('0' : Char) ≤ c) && decide (c ≤ ('9' : Char)))) = true := by
  decide

/-- Claim C10 (first half): every generated session code is an 8-character
string over A-Z and 0-9, hence matches the resume validation pattern. -/
theorem C10_generateCode_matches_regex (picks : Fin 8 → Fin 36) :
    codeFormatOk (generateCode picks) = true := by
  unfold codeFormatOk generateCode
  rw [Bool.and_eq_true]
  constructor
  · simp [String.length]
  · rw [List.all_eq_true]
    intro c hc
    simp only [String.mk, List.mem_map] at hc
    obtain ⟨i, -, hi⟩ := hc
    exact sessionAlphabet_chars_ok c (hi ▸ List.get_mem _ _ _)

/-! ## Session store (createNewSession / saveState / resumeSession /
completeTask in part_002)

The client keeps one mutable `state` object per tab; we model the subset
of its fields that the store operations read or write.  `lastActivity`
(an ISO string in the source) is modelled as the underlying millisecond
timestamp.  The primary document store (Firestore `sessions` collection)
is modelled as a map from session codes to stored documents; the
`lastUpdated` server timestamp that `saveState` adds and `resumeSession`
deletes is the extra field of `StoredDoc`. -/

def TASK_CODES : List String := ["RC", "MRT", "ASLCT", "VCN", "SN", "ID", "DEMO"]

/-- `TASKS[taskCode]` lookup succeeding, i.e. the guard at the top of
`completeTask` / `skipTask`. -/
def taskExists (c : String) : Bool := TASK_CODES.contains c

structure Session where
  sessionCode : String
  isMobile : Bool
  sequenceIndex : Int
  sequence : List String
  currentTaskIndex : Nat
  completedTasks : List String
  skippedTasks : List String
  totalTimeSpent : Int
  lastActivity : Int
deriving DecidableEq, Repr

/-- The initial `state` literal (progress-related fields). -/
def initialSession : Session :=
  { sessionCode := "", isMobile := false, sequenceIndex := 0, sequence := [],
    currentTaskIndex := 0, completedTasks := [], skippedTasks := [],
    totalTimeSpent := 0, lastActivity := 0 }

/-- Helper for the `while` loop of `completeTask`/`skipTask`: the number
of leading entries of a suffix of the sequence that are already marked
complete. -/
def skipCompleted (completed : List String) : List String → Nat
  | [] => 0
  | c :: rest => if completed.contains c then skipCompleted completed rest + 1 else 0

/-- The `while` loop of `completeTask`/`skipTask`: starting at `i`,
advance the index past tasks already marked complete (the loop stops at
the first index whose task is not complete, or at the end). -/
def advanceIndex (seq completed : List String) (i : Nat) : Nat :=
  i + skipCompleted completed (seq.drop i)

/-- `completeTask(taskCode)`: stop the task timer, fold its elapsed time
into the session total, mark the task completed, unmark it skipped,
advance the index, and save (which refreshes `lastActivity`).  The
`sendToSheets` audit payload and screen switching have no effect on the
session state. -/
def completeTask (code : String) (s : Session) (tm : Timer) (now : Int) :
    Session × Timer :=
  if taskExists code then
    let tm1 := tm.stop now
    let summary := tm1.getSummary now
    let completed1 :=
      if s.completedTasks.contains code then s.completedTasks
      else s.completedTasks ++ [code]
    let skipped1 := s.skippedTasks.filter (fun c => c != code)
    ({ s with totalTimeSpent := s.totalTimeSpent + summary.elapsed,
              completedTasks := completed1, skippedTasks := skipped1,
              currentTaskIndex := advanceIndex s.sequence completed1
                (s.currentTaskIndex + 1),
              lastActivity := now }, tm1)
  else (s, tm)

/-- A document in the primary store: the snapshot plus the `lastUpdated`
timestamp added on save (and deleted again on resume). -/
structure StoredDoc where
  st : Session
  lastUpdated : Int

def Db : Type := String → Option StoredDoc

/-- `saveState()`, restricted to the primary document store: refresh
`lastActivity`, then write the whole snapshot (plus `lastUpdated`) under
the session code; an empty session code aborts the save. -/
def saveState (s : Session) (now : Int) (db : Db) : Session × Db :=
  if s.sessionCode == "" then (s, db)
  else
    let s1 := { s with lastActivity := now }
    (s1, fun k => if k == s.sessionCode then some ⟨s1, now⟩ else db k)

inductive ResumeResult
  | invalidCode
  | notFound
  | ok (s : Session)

/-- `resumeSession(code)` on the primary path: validate the code against
`CODE_REGEX`, look it up in the document store, drop `lastUpdated`,
re-normalize the sequence with `ensureDemographicsLast`, and save the
restored state back.  (The Sheets fallback and the browser alert flows
are configuration-dependent and not modelled.) -/
def resumeSession (code : String) (db : Db) (now : Int) : ResumeResult × Db :=
  if !(codeFormatOk code) then (ResumeResult.invalidCode, db)
  else
    match db code with
    | some doc =>
      let s1 := { doc.st with sequence := ensureDemographicsLast doc.st.sequence }
      let p := saveState s1 now db
      (ResumeResult.ok p.1, p.2)
    | none => (ResumeResult.notFound, db)

/-- `createNewSession()` (state construction and initial save; the form
validation, participant fields and audit logging do not touch the
modelled fields). -/
def createNewSession (code : String) (isMobile : Bool) (now : Int) (db : Db) :
    Session × Db :=
  saveState
    { initialSession with
        sessionCode := code,
        sequenceIndex := (seedOf code : Int),
        sequence := buildSequence isMobile (seedOf code),
        isMobile := isMobile,
        lastActivity := now }
    now db

/-! ### Idempotence of completeTask (claim C5) -/

def exSession : Session :=
  { sessionCode := "ABCD1234", isMobile := false, sequenceIndex := 0,
    sequence := ["RC", "MRT", "DEMO"], currentTaskIndex := 0,
    completedTasks := [], skippedTasks := [], totalTimeSpent := 0,
    lastActivity := 0 }

def exTimer : Timer := Timer.start createTimer 0

/-- Counterexample to claim C5 as stated: completing the same task twice
in a row is not a no-op beyond the first index advancement — the second
call adds the task timer elapsed time to `totalTimeSpent` again (the
`+=` is unconditional) and advances `currentTaskIndex` a second time,
past a task that was never completed. -/
theorem C5_double_complete_counterexample :
    (completeTask "RC" (completeTask "RC" exSession exTimer 1000).1
        (completeTask "RC" exSession exTimer 1000).2 1000).1.totalTimeSpent = 2000 ∧
    (completeTask "RC" exSession exTimer 1000).1.totalTimeSpent = 1000 ∧
    (completeTask "RC" (completeTask "RC" exSession exTimer 1000).1
        (completeTask "RC" exSession exTimer 1000).2 1000).1.currentTaskIndex = 2 ∧
    (completeTask "RC" exSession exTimer 1000).1.currentTaskIndex = 1 := by
  decide

/-- Claim C5 (amended): a second `completeTask(x)` immediately after a
first leaves the completed-task and skipped-task sets unchanged (the
membership guard skips the push and the filter is already saturated),
but it is not a no-op on the rest of the state: `currentTaskIndex`
advances again and `totalTimeSpent` accrues the timer elapsed again, as
the counterexample shows. -/
theorem C5_completeTask_repeat_preserves_sets (code : String) (s : Session)
    (tm : Timer) (n1 n2 : Int) :
    (completeTask code (completeTask code s tm n1).1
        (completeTask code s tm n1).2 n2).1.completedTasks
      = (completeTask code s tm n1).1.completedTasks ∧
    (completeTask code (completeTask code s tm n1).1
        (completeTask code s tm n1).2 n2).1.skippedTasks
      = (completeTask code s tm n1).1.skippedTasks := by
  by_cases hex : taskExists code
  · have hmem : ∀ (l : List String),
        (if l.contains code then l else l ++ [code]).contains code = true := by
      intro l
      by_cases hm : l.contains code
      · rw [if_pos hm]
        exact hm
      · rw [if_neg hm]
        simp
    have hfil : ∀ (l : List String),
        (l.filter (fun c => c != code)).filter (fun c => c != code)
          = l.filter (fun c => c != code) := by
      intro l
      rw [List.filter_filter]
      simp [Bool.and_self]
    simp only [completeTask, hex, if_true]
    constructor
    · simp only [hmem, if_true]
    · simp only [hfil]
  · simp [completeTask, hex]

/-! ### Save/resume round trip (claim C7) -/

theorem ensureDemographicsLast_idem (l : List String) :
    ensureDemographicsLast (ensureDemographicsLast l) = ensureDemographicsLast l := by
  unfold ensureDemographicsLast
  have h1 : List.filter (fun c => c != "DEMO") ["DEMO"] = [] := rfl
  rw [List.filter_append, h1, List.append_nil, List.filter_filter]
  simp [Bool.and_self]

/-- Claim C7: saving a freshly created session and resuming with its code
returns a snapshot whose sequence, completed set and skipped set equal
the pre-save snapshot (bookkeeping such as `lastActivity` may differ). -/
theorem C7_save_resume_roundtrip (code : String) (isMobile : Bool)
    (now now2 : Int) (db : Db) (hcode : codeFormatOk code = true) :
    ∃ s2, (resumeSession code (createNewSession code isMobile now db).2 now2).1
        = ResumeResult.ok s2 ∧
      s2.sequence = (createNewSession code isMobile now db).1.sequence ∧
      s2.completedTasks = (createNewSession code isMobile now db).1.completedTasks ∧
      s2.skippedTasks = (createNewSession code isMobile now db).1.skippedTasks := by
  have hne : (code == "") = false := by
    cases hb : (code == "") with
    | false => rfl
    | true =>
      have hc0 : code = "" := by simpa using hb
      rw [hc0] at hcode
      exact absurd hcode (by decide)
  unfold createNewSession saveState resumeSession saveState
  simp only [hne, Bool.false_eq_true, if_false, hcode, Bool.not_true,
    beq_self_eq_true, if_true, if_neg]
  refine ⟨_, rfl, ?_, rfl, rfl⟩
  simp [buildSequence, ensureDemographicsLast_idem]

/-- Witness for C7 at a concrete code and an empty store. -/
theorem C7_save_resume_roundtrip_witness :
    ∃ s2, (resumeSession "ABCD1234"
        (createNewSession "ABCD1234" false 0 (fun _ => none)).2 10).1
        = ResumeResult.ok s2 ∧
      s2.sequence = (createNewSession "ABCD1234" false 0 (fun _ => none)).1.sequence ∧
      s2.completedTasks
        = (createNewSession "ABCD1234" false 0 (fun _ => none)).1.completedTasks ∧
      s2.skippedTasks
        = (createNewSession "ABCD1234" false 0 (fun _ => none)).1.skippedTasks :=
  C7_save_resume_roundtrip "ABCD1234" false 0 10 (fun _ => none) (by decide)

/-! ### Resume accepts every generated code (claim C10) -/

/-- Claim C10: a code produced by `generateCode` always matches the
`/^[A-Z0-9]{8}$/` gate of `resumeSession`, so resuming with a generated
code never takes the invalid-code branch (it proceeds to the store
lookup, reporting found or not-found). -/
theorem C10_generated_code_accepted (picks : Fin 8 → Fin 36) (db : Db)
    (now : Int) :
    (resumeSession (generateCode picks) db now).1 ≠ ResumeResult.invalidCode := by
  unfold resumeSession
  rw [C10_generateCode_matches_regex picks]
  simp only [Bool.not_true, Bool.false_eq_true, if_false]
  cases h : db (generateCode picks) <;> simp [h]

/-! ### Multi-backend save control flow (claim C8)

`saveState` writes to three backends: the Firestore document store (an
asynchronous `set(...).catch(...)` whose rejection is swallowed by its
own handler), the localStorage cache (two synchronous `setItem` calls
inside the enclosing `try`), and the legacy Sheets endpoint
(`sendToSheets`, which catches its own network errors).  `SaveOutcome`
records which backends received the write and whether an exception
escaped to the caller; `saveStateOutcome` is the control flow of the
function body for a given combination of backend failures.  `valid` is
the `state && state.sessionCode` guard, `hasDb` is `window.db`
presence. -/

structure SaveOutcome where
  wroteDoc : Bool
  wroteCache : Bool
  wroteSheet : Bool
  threw : Bool
deriving DecidableEq, Repr

def saveStateOutcome (valid hasDb docFails cacheFails sheetFails : Bool) :
    SaveOutcome :=
  if !valid then
    { wroteDoc := false, wroteCache := false, wroteSheet := false, threw := false }
  else
    let wroteDoc := hasDb && !docFails
    if cacheFails then
      { wroteDoc := wroteDoc, wroteCache := false, wroteSheet := false,
        threw := false }
    else
      { wroteDoc := wroteDoc, wroteCache := true, wroteSheet := !sheetFails,
        threw := false }

/-- Counterexample to claim C8 as stated: when the localStorage cache
write throws (for example on quota exhaustion), control jumps to the
enclosing `catch` and the legacy-sheet write is skipped even though that
backend is healthy — so a failure of one backend does prevent the write
to another.  (No error propagates to the caller, as claimed.) -/
theorem C8_cache_failure_skips_sheet_counterexample :
    (saveStateOutcome true true false true false).wroteSheet = false ∧
    (saveStateOutcome true true false true false).threw = false := by
  decide

/-- Claim C8 (amended): no save error ever propagates to the caller, and
the document-store write is isolated (its failure never affects the
cache or sheet writes, and it is attempted whenever the store is
configured); but the cache write is not isolated from the sheet write:
the sheet receives the write exactly when the cache write did not throw
and the sheet itself does not fail. -/
theorem C8_save_isolation (hasDb docFails cacheFails sheetFails : Bool) :
    (saveStateOutcome true hasDb docFails cacheFails sheetFails).threw = false ∧
    (saveStateOutcome true hasDb docFails cacheFails sheetFails).wroteDoc
      = (hasDb && !docFails) ∧
    (saveStateOutcome true hasDb docFails cacheFails sheetFails).wroteCache
      = !cacheFails ∧
    (saveStateOutcome true hasDb docFails cacheFails sheetFails).wroteSheet
      = (!cacheFails && !sheetFails) := by
  cases cacheFails <;> simp [saveStateOutcome]

/-! ## Backend aggregator (updateTotalTime / computeSessionWindowMs_ in
the Apps Script backend, part_003)

Sheet rows are modelled as records whose timestamp cells carry the result
of `parseTsMs_` (`Option Int`: `none` for an unparseable cell) and whose
numeric cells carry the result of `Number(...) || 0` (an `Int`).  The
spreadsheet row filtering (`pv[i][1] !== sessionCode`) is the `sessionCode`
comparison below; header lookup, locking and the self-healing writes of
step 5 carry no arithmetic content. -/

structure SessionsRow where
  created : Option Int
  lastAct : Option Int
  pausedMin : Int
deriving DecidableEq, Repr

structure ProgressRow where
  sessionCode : String
  rowTs : Option Int
  startTs : Option Int
  endTs : Option Int
  activeSec : Int
  inactiveSec : Int
deriving DecidableEq, Repr

structure EventRow where
  sessionCode : String
  ts : Option Int
deriving DecidableEq, Repr

/-- `minMs = (minMs == null) ? ms : Math.min(minMs, ms)` and the loop
variant `if (minMs == null || ms < minMs) minMs = ms`. -/
def mergeMin (m : Option Int) (v : Int) : Option Int :=
  match m with
  | none => some v
  | some x => some (min x v)

def mergeMax (m : Option Int) (v : Int) : Option Int :=
  match m with
  | none => some v
  | some x => some (max x v)

/-- One nullable timestamp merged into both the running minimum and the
running maximum (`[t0, st, et].forEach(function(ms){ if (ms != null) ... })`). -/
def mergeBoth (acc : Option Int × Option Int) (ms : Option Int) :
    Option Int × Option Int :=
  match ms with
  | none => acc
  | some v => (mergeMin acc.1 v, mergeMax acc.2 v)

def progWindowStep (code : String) (acc : Option Int × Option Int)
    (r : ProgressRow) : Option Int × Option Int :=
  if r.sessionCode == code then [r.rowTs, r.startTs, r.endTs].foldl mergeBoth acc
  else acc

def eventWindowStep (code : String) (acc : Option Int × Option Int)
    (r : EventRow) : Option Int × Option Int :=
  if r.sessionCode == code then mergeBoth acc r.ts else acc

/-- `computeSessionWindowMs_`: the Sessions row feeds `Created Date` only
into the minimum and `Last Activity` only into the maximum; every
matching Task Progress row feeds its three timestamps, and every matching
Session Events row its one timestamp, into both; fallbacks `minMs = now`,
`maxMs = minMs`, then the window is clamped nonnegative. -/
def computeSessionWindowMs (srow : Option SessionsRow)
    (prog : List ProgressRow) (events : List EventRow) (code : String)
    (now : Int) : Int × Int :=
  let acc0 : Option Int × Option Int :=
    match srow with
    | none => (none, none)
    | some r => (r.created, r.lastAct)
  let acc1 := prog.foldl (progWindowStep code) acc0
  let acc2 := events.foldl (eventWindowStep code) acc1
  let minMs := acc2.1.getD now
  let maxMs := acc2.2.getD minMs
  (minMs, if maxMs < minMs then minMs else maxMs)

/-- The Task Progress summation loop of `updateTotalTime` (step 2):
active and inactive seconds of matching rows, counting only positive
entries. -/
def sumsStep (code : String) (a : Int × Int) (r : ProgressRow) : Int × Int :=
  if r.sessionCode == code then
    ((if r.activeSec > 0 then a.1 + r.activeSec else a.1),
     (if r.inactiveSec > 0 then a.2 + r.inactiveSec else a.2))
  else a

structure TotalsOut where
  totalSec : Int
  activeSec : Int
  inactiveSec : Int
  pausedSec : Int
  idleSec : Int
  totalMin : Int
  activeMin : Int
  idleMin : Int
  pausedMin : Int
deriving DecidableEq, Repr

/-- The arithmetic of `updateTotalTime` (steps 1-4), for a session whose
Sessions row was found. -/
def updateTotalTime (srow : SessionsRow) (prog : List ProgressRow)
    (events : List EventRow) (code : String) (now : Int) : TotalsOut :=
  let win := computeSessionWindowMs (some srow) prog events code now
  let totalSecByWindow := max 0 (jsRound (((win.2 - win.1 : Int) : ℚ) / 1000))
  let sums := prog.foldl (sumsStep code) (0, 0)
  let pausedSec := srow.pausedMin * 60
  let idleSec := max 0 (totalSecByWindow - sums.1 - pausedSec - sums.2)
  { totalSec := totalSecByWindow, activeSec := sums.1, inactiveSec := sums.2,
    pausedSec := pausedSec, idleSec := idleSec,
    totalMin := jsRound ((totalSecByWindow : ℚ) / 60),
    activeMin := jsRound ((sums.1 : ℚ) / 60),
    idleMin := jsRound ((idleSec : ℚ) / 60),
    pausedMin := jsRound ((pausedSec : ℚ) / 60) }

/-! ### Declarative characterization of the window and the sums -/

/-- The timestamps a matching Task Progress row contributes. -/
def rowCandidates (r : ProgressRow) : List Int :=
  r.rowTs.toList ++ r.startTs.toList ++ r.endTs.toList

/-- Every timestamp that can lower the window start. -/
def windowCandidatesMin (srow : SessionsRow) (prog : List ProgressRow)
    (events : List EventRow) (code : String) : List Int :=
  srow.created.toList
    ++ (prog.filter (fun r => r.sessionCode == code)).flatMap rowCandidates
    ++ (events.filter (fun r => r.sessionCode == code)).flatMap
        (fun r => r.ts.toList)

/-- Every timestamp that can raise the window end. -/
def windowCandidatesMax (srow : SessionsRow) (prog : List ProgressRow)
    (events : List EventRow) (code : String) : List Int :=
  srow.lastAct.toList
    ++ (prog.filter (fun r => r.sessionCode == code)).flatMap rowCandidates
    ++ (events.filter (fun r => r.sessionCode == code)).flatMap
        (fun r => r.ts.toList)

/-- The window start per the specification: the earliest trusted
timestamp, defaulting to `now` when there is none. -/
def windowStartSpec (srow : SessionsRow) (prog : List ProgressRow)
    (events : List EventRow) (code : String) (now : Int) : Int :=
  match windowCandidatesMin srow prog events code with
  | [] => now
  | x :: xs => xs.foldl min x

/-- The window end per the specification: the latest trusted timestamp,
clamped below by the window start. -/
def windowEndSpec (srow : SessionsRow) (prog : List ProgressRow)
    (events : List EventRow) (code : String) (now : Int) : Int :=
  match windowCandidatesMax srow prog events code with
  | [] => windowStartSpec srow prog events code now
  | x :: xs => max (windowStartSpec srow prog events code now) (xs.foldl max x)

/-- Summed positive active seconds of the matching rows. -/
def sumPosActive (prog : List ProgressRow) (code : String) : Int :=
  ((prog.filter (fun r => r.sessionCode == code)).map
    (fun r => if r.activeSec > 0 then r.activeSec else 0)).sum

/-- Summed positive inactive seconds of the matching rows. -/
def sumPosInactive (prog : List ProgressRow) (code : String) : Int :=
  ((prog.filter (fun r => r.sessionCode == code)).map
    (fun r => if r.inactiveSec > 0 then r.inactiveSec else 0)).sum

theorem foldl_mergeMin_some (l : List Int) (a : Int) :
    l.foldl mergeMin (some a) = some (l.foldl min a) := by
  induction l generalizing a with
  | nil => rfl
  | cons x xs ih => simpa [mergeMin] using ih (min a x)

theorem foldl_mergeMax_some (l : List Int) (a : Int) :
    l.foldl mergeMax (some a) = some (l.foldl max a) := by
  induction l generalizing a with
  | nil => rfl
  | cons x xs ih => simpa [mergeMax] using ih (max a x)

theorem foldl_mergeBoth_split (ms : List (Option Int))
    (acc : Option Int × Option Int) :
    ms.foldl mergeBoth acc
      = ((ms.flatMap Option.toList).foldl mergeMin acc.1,
         (ms.flatMap Option.toList).foldl mergeMax acc.2) := by
  induction ms generalizing acc with
  | nil => simp
  | cons m rest ih =>
    cases m with
    | none => simpa [mergeBoth, Option.toList] using ih acc
    | some v =>
      simpa [mergeBoth, Option.toList] using
        ih (mergeMin acc.1 v, mergeMax acc.2 v)

theorem foldl_progWindow (prog : List ProgressRow) (code : String)
    (acc : Option Int × Option Int) :
    prog.foldl (progWindowStep code) acc
      = (((prog.filter (fun r => r.sessionCode == code)).flatMap
            rowCandidates).foldl mergeMin acc.1,
         ((prog.filter (fun r => r.sessionCode == code)).flatMap
            rowCandidates).foldl mergeMax acc.2) := by
  induction prog generalizing acc with
  | nil => simp
  | cons r rest ih =>
    by_cases h : r.sessionCode == code
    · have hcand : [r.rowTs, r.startTs, r.endTs].flatMap Option.toList
          = rowCandidates r := by
        simp [rowCandidates]
      rw [List.foldl_cons,
        @List.filter_cons_of_pos _ (fun r => r.sessionCode == code) r rest h,
        List.flatMap_cons]
      rw [List.foldl_append, List.foldl_append]
      rw [progWindowStep, if_pos h, foldl_mergeBoth_split, hcand]
      exact ih _
    · rw [List.foldl_cons,
        @List.filter_cons_of_neg _ (fun r => r.sessionCode == code) r rest h]
      rw [progWindowStep, if_neg h]
      exact ih acc

theorem foldl_eventWindow (events : List EventRow) (code : String)
    (acc : Option Int × Option Int) :
    events.foldl (eventWindowStep code) acc
      = (((events.filter (fun r => r.sessionCode == code)).flatMap
            (fun r => r.ts.toList)).foldl mergeMin acc.1,
         ((events.filter (fun r => r.sessionCode == code)).flatMap
            (fun r => r.ts.toList)).foldl mergeMax acc.2) := by
  induction events generalizing acc with
  | nil => simp
  | cons r rest ih =>
    by_cases h : r.sessionCode == code
    · rw [List.foldl_cons,
        @List.filter_cons_of_pos _ (fun r => r.sessionCode == code) r rest h,
        List.flatMap_cons]
      rw [List.foldl_append, List.foldl_append]
      rw [eventWindowStep, if_pos h]
      cases hts : r.ts with
      | none =>
        simpa [mergeBoth, hts, Option.toList] using ih acc
      | some v =>
        simpa [mergeBoth, hts, Option.toList, mergeMin, mergeMax] using
          ih (mergeMin acc.1 v, mergeMax acc.2 v)
    · rw [List.foldl_cons,
        @List.filter_cons_of_neg _ (fun r => r.sessionCode == code) r rest h]
      rw [eventWindowStep, if_neg h]
      exact ih acc

theorem foldl_merge_fromOpt (m : Option Int) (l : List Int) :
    l.foldl mergeMin m = (m.toList ++ l).foldl mergeMin none ∧
    l.foldl mergeMax m = (m.toList ++ l).foldl mergeMax none := by
  cases m <;> exact ⟨rfl, rfl⟩

theorem foldl_mergeMin_none_cases (l : List Int) :
    l.foldl mergeMin none
      = (match l with | [] => none | x :: xs => some (xs.foldl min x)) := by
  cases l with
  | nil => rfl
  | cons x xs => simpa [mergeMin] using foldl_mergeMin_some xs x

theorem foldl_mergeMax_none_cases (l : List Int) :
    l.foldl mergeMax none
      = (match l with | [] => none | x :: xs => some (xs.foldl max x)) := by
  cases l with
  | nil => rfl
  | cons x xs => simpa [mergeMax] using foldl_mergeMax_some xs x

/-- The imperative window recomputation equals its declarative
specification: the start is the least trusted timestamp (default `now`),
the end is the greatest trusted timestamp clamped below by the start. -/
theorem computeSessionWindowMs_spec (srow : SessionsRow)
    (prog : List ProgressRow) (events : List EventRow) (code : String)
    (now : Int) :
    computeSessionWindowMs (some srow) prog events code now
      = (windowStartSpec srow prog events code now,
         windowEndSpec srow prog events code now) := by
  unfold computeSessionWindowMs
  dsimp only
  rw [foldl_progWindow]
  rw [foldl_eventWindow]
  dsimp only
  rw [(foldl_merge_fromOpt srow.created _).1, ← List.foldl_append]
  rw [(foldl_merge_fromOpt srow.lastAct _).2, ← List.foldl_append]
  have hmin := foldl_mergeMin_none_cases
    (windowCandidatesMin srow prog events code)
  have hmax := foldl_mergeMax_none_cases
    (windowCandidatesMax srow prog events code)
  unfold windowCandidatesMin at hmin
  unfold windowCandidatesMax at hmax
  simp only [windowStartSpec, windowEndSpec, windowCandidatesMin,
    windowCandidatesMax]
  rw [hmin, hmax]
  simp only [Prod.mk.injEq]
  cases hcmin : (srow.created.toList
      ++ (prog.filter (fun r => r.sessionCode == code)).flatMap rowCandidates
      ++ (events.filter (fun r => r.sessionCode == code)).flatMap
          (fun r => r.ts.toList)) with
  | nil =>
    cases hcmax : (srow.lastAct.toList
        ++ (prog.filter (fun r => r.sessionCode == code)).flatMap rowCandidates
        ++ (events.filter (fun r => r.sessionCode == code)).flatMap
            (fun r => r.ts.toList)) with
    | nil =>
      dsimp only [Option.getD]
      exact ⟨rfl, by rw [if_neg (lt_irrefl now)]⟩
    | cons y ys =>
      dsimp only [Option.getD]
      refine ⟨rfl, ?_⟩
      split_ifs <;> omega
  | cons x xs =>
    cases hcmax : (srow.lastAct.toList
        ++ (prog.filter (fun r => r.sessionCode == code)).flatMap rowCandidates
        ++ (events.filter (fun r => r.sessionCode == code)).flatMap
            (fun r => r.ts.toList)) with
    | nil =>
      dsimp only [Option.getD]
      exact ⟨rfl, by rw [if_neg (lt_irrefl _)]⟩
    | cons y ys =>
      dsimp only [Option.getD]
      refine ⟨rfl, ?_⟩
      split_ifs <;> omega

theorem foldl_sums (prog : List ProgressRow) (code : String) (a : Int × Int) :
    prog.foldl (sumsStep code) a
      = (a.1 + sumPosActive prog code, a.2 + sumPosInactive prog code) := by
  induction prog generalizing a with
  | nil => simp [sumPosActive, sumPosInactive]
  | cons r rest ih =>
    by_cases h : r.sessionCode == code
    · rw [List.foldl_cons, sumsStep, if_pos h, ih]
      unfold sumPosActive sumPosInactive
      rw [@List.filter_cons_of_pos _ (fun r => r.sessionCode == code) r rest h]
      simp only [List.map_cons, List.sum_cons, Prod.mk.injEq]
      constructor <;> split_ifs <;> omega
    · rw [List.foldl_cons, sumsStep, if_neg h, ih]
      unfold sumPosActive sumPosInactive
      rw [@List.filter_cons_of_neg _ (fun r => r.sessionCode == code) r rest h]

/-- Counterexample to claim C6 as stated: the aggregator subtracts the
summed inactive seconds as well, so the recomputed idle time is in
general strictly below `total − active − paused` floored at zero.  With a
100 s window, 10 s active, 20 s inactive and no paused time, the code
computes idle = 70 s, not 90 s. -/
theorem C6_idle_subtracts_inactive_counterexample :
    (updateTotalTime ⟨some 0, some 100000, 0⟩
        [⟨"S", none, none, none, 10, 20⟩] [] "S" 0).idleSec = 70 ∧
    ¬((updateTotalTime ⟨some 0, some 100000, 0⟩
          [⟨"S", none, none, none, 10, 20⟩] [] "S" 0).idleSec
        = max 0 ((updateTotalTime ⟨some 0, some 100000, 0⟩
              [⟨"S", none, none, none, 10, 20⟩] [] "S" 0).totalSec
            - (updateTotalTime ⟨some 0, some 100000, 0⟩
                [⟨"S", none, none, none, 10, 20⟩] [] "S" 0).activeSec
            - (updateTotalTime ⟨some 0, some 100000, 0⟩
                [⟨"S", none, none, none, 10, 20⟩] [] "S" 0).pausedSec)) := by
  have hwin : computeSessionWindowMs (some ⟨some 0, some 100000, 0⟩)
      [⟨"S", none, none, none, 10, 20⟩] [] "S" 0 = (0, 100000) := rfl
  have hsums : List.foldl (sumsStep "S") ((0 : Int), (0 : Int))
      [⟨"S", none, none, none, 10, 20⟩] = (10, 20) := rfl
  have hidle : (updateTotalTime ⟨some 0, some 100000, 0⟩
      [⟨"S", none, none, none, 10, 20⟩] [] "S" 0).idleSec = 70 := by
    unfold updateTotalTime
    rw [hwin, hsums]
    norm_num [jsRound]
  have htot : (updateTotalTime ⟨some 0, some 100000, 0⟩
      [⟨"S", none, none, none, 10, 20⟩] [] "S" 0).totalSec = 100 := by
    unfold updateTotalTime
    rw [hwin]
    norm_num [jsRound]
  have hact : (updateTotalTime ⟨some 0, some 100000, 0⟩
      [⟨"S", none, none, none, 10, 20⟩] [] "S" 0).activeSec = 10 := by
    unfold updateTotalTime
    rw [hsums]
  have hpau : (updateTotalTime ⟨some 0, some 100000, 0⟩
      [⟨"S", none, none, none, 10, 20⟩] [] "S" 0).pausedSec = 0 := rfl
  refine ⟨hidle, ?_⟩
  rw [hidle, htot, hact, hpau]
  decide

/-- Claim C6 (amended): the recomputed idle time equals the total window
duration (latest minus earliest trusted timestamp of the session window,
rounded to seconds and floored at zero) minus the summed positive active
seconds, minus the recorded paused time, minus the summed positive
inactive seconds, floored at zero. -/
theorem C6_idle_remainder (srow : SessionsRow) (prog : List ProgressRow)
    (events : List EventRow) (code : String) (now : Int) :
    (updateTotalTime srow prog events code now).idleSec
      = max 0 (max 0 (jsRound (((windowEndSpec srow prog events code now
            - windowStartSpec srow prog events code now : Int) : ℚ) / 1000))
          - sumPosActive prog code - srow.pausedMin * 60
          - sumPosInactive prog code) := by
  unfold updateTotalTime
  rw [computeSessionWindowMs_spec, foldl_sums]
  dsimp only
  norm_num

end Study
